import Mathlib

/-!
Verification of the command-gating hooks in `claude/user/hooks`:
`shell_rules.py` (deterministic deny/ask rules) and
`opus_permission_validator.py` (allow-list plus oracle fallback).

The Python sources are shallowly embedded as executable Lean functions.
Commands are strings; regular-expression searches of the two concrete
patterns in the source (`\brm\b` and `xargs\s+.*-I.*sh\s+-c`) are embedded
as direct scanning functions with Python `re.search` semantics; the JSON
envelopes read from stdin are embedded as a small `Json` type, with
Python `dict.get` failures on non-dict values surfaced as errors, since
only one of the two scripts catches them.
-/

/-! ## Character classes (Python `str.split` whitespace and `re` word chars) -/

/-- Whitespace characters recognised by Python `str.split()` and `\s`
(space, tab, newline, carriage return, form feed, vertical tab). -/
def isPyWs (c : Char) : Bool :=
  c == ' ' || c == '\t' || c == '\n' || c == '\x0d' || c == '\x0c' || c == '\x0b'

/-- ASCII word characters, Python `re` `\w` (letters, digits, underscore). -/
def isWordChar (c : Char) : Bool :=
  c.isAlphanum || c == '_'

/-! ## Python `str.split()` (whitespace tokenisation) -/

/-- Accumulating worker for `pySplit`; `cur` holds the current token reversed. -/
def pyWordsAux : List Char → List Char → List String
  | [], cur => if cur.isEmpty then [] else [String.mk cur.reverse]
  | c :: rest, cur =>
    if isPyWs c then
      if cur.isEmpty then pyWordsAux rest []
      else String.mk cur.reverse :: pyWordsAux rest []
    else pyWordsAux rest (c :: cur)

/-- Python `command.split()`: split on runs of whitespace, dropping empties. -/
def pySplit (s : String) : List String :=
  pyWordsAux s.toList []

/-! ## Embedding of `re.search(r"\brm\b", command)` (shell_rules.py line 20) -/

/-- Left word-boundary test: `none` is the start of the string. -/
def prevNonWord : Option Char → Bool
  | none => true
  | some c => !isWordChar c

/-- Right word-boundary test on the text following the match. -/
def nonWordStart : List Char → Bool
  | [] => true
  | c :: _ => !isWordChar c

/-- Does the text begin with `rm` followed by a word boundary? -/
def rmHere : List Char → Bool
  | c1 :: c2 :: rest => c1 == 'r' && c2 == 'm' && nonWordStart rest
  | _ => false

/-- Scan the text for `\brm\b` at every position, tracking the previous
character for the left word boundary. -/
def rmScan (prev : Option Char) : List Char → Bool
  | [] => false
  | c :: rest => (prevNonWord prev && rmHere (c :: rest)) || rmScan (some c) rest

/-- `re.search(r"\brm\b", s)` produced a match. -/
def rmSearch (s : String) : Bool :=
  rmScan none s.toList

/-! ## Embedding of `re.search(r"xargs\s+.*-I.*sh\s+-c", command)` -/

/-- Match a literal word, then continue with `k`. -/
def litThen : List Char → (List Char → Bool) → List Char → Bool
  | [], k, l => k l
  | _ :: _, _, [] => false
  | c :: w, k, d :: l => c == d && litThen w k l

/-- Match `\s+` (one or more whitespace characters), then continue with `k`;
all split points are tried. -/
def wsPlusThen (k : List Char → Bool) : List Char → Bool
  | [] => false
  | c :: rest => isPyWs c && (k rest || wsPlusThen k rest)

/-- Match `.*` (any run of non-newline characters), then continue with `k`;
all split points are tried. -/
def dotStarThen (k : List Char → Bool) : List Char → Bool
  | [] => k []
  | c :: rest => k (c :: rest) || (c != '\n' && dotStarThen k rest)

/-- Try the matcher `k` at every start position, as `re.search` does. -/
def searchAnywhere (k : List Char → Bool) : List Char → Bool
  | [] => k []
  | c :: rest => k (c :: rest) || searchAnywhere k rest

/-- `re.search(r"xargs\s+.*-I.*sh\s+-c", s)` produced a match. -/
def xargsSearch (s : String) : Bool :=
  searchAnywhere
    (litThen "xargs".toList
      (wsPlusThen (dotStarThen (litThen "-I".toList
        (dotStarThen (litThen "sh".toList
          (wsPlusThen (litThen "-c".toList (fun _ => true)))))))))
    s.toList

/-! ## shell_rules.py : rule tables and `check_command` -/

/-- `FORBIDDEN` table of shell_rules.py (pattern search, reason). -/
def FORBIDDEN : List ((String → Bool) × String) :=
  [(rmSearch, "rm command forbidden")]

/-- `ANTIPATTERNS` table of shell_rules.py (pattern search, reason). -/
def ANTIPATTERNS : List ((String → Bool) × String) :=
  [(xargsSearch, "xargs -I ... sh -c antipattern detected")]

/-- `check_command` of shell_rules.py: forbidden rules first, then
antipatterns; empty decision means no opinion. -/
def check_command (command : String) : String × String :=
  match FORBIDDEN.find? (fun rule => rule.1 command) with
  | some rule => ("deny", rule.2)
  | none =>
    match ANTIPATTERNS.find? (fun rule => rule.1 command) with
    | some rule => ("ask", rule.2)
    | none => ("", "")

/-- `load_rules` of shell_rules.py; the rules file content is passed in as
`none` when the file is absent (`FileNotFoundError` branch). -/
def load_rules (rulesFile : Option String) : String :=
  match rulesFile with
  | some content => content
  | none => "(Rules file not found)"

/-! ## JSON values read from stdin -/

/-- Parsed JSON documents, as produced by Python `json.load`. -/
inductive Json where
  | jnull : Json
  | jbool : Bool → Json
  | jnum : Int → Json
  | jstr : String → Json
  | jarr : List Json → Json
  | jobj : List (String × Json) → Json

/-- Python `value.get(key, default)`: succeeds on dicts, raises
`AttributeError` on every other JSON value. -/
def Json.get (j : Json) (key : String) (default : Json) : Except String Json :=
  match j with
  | .jobj fields =>
    match fields.find? (fun kv => kv.1 == key) with
    | some kv => .ok kv.2
    | none => .ok default
  | _ => .error "AttributeError"

/-- Python truthiness of a JSON value (`if not command:`). -/
def Json.truthy : Json → Bool
  | .jnull => false
  | .jbool b => b
  | .jnum n => n != 0
  | .jstr s => s != ""
  | .jarr xs => !xs.isEmpty
  | .jobj fields => !fields.isEmpty

/-- Python `==` against a string literal: non-strings compare unequal. -/
def Json.eqStr : Json → String → Bool
  | .jstr s, t => s == t
  | _, _ => false

/-- The stdin envelope both hooks receive;
used to state properties about concrete inputs. -/
def mkEnv (tool_name command : String) : Json :=
  .jobj [("tool_name", .jstr tool_name),
         ("tool_input", .jobj [("command", .jstr command)])]

/-! ## shell_rules.py : `main` -/

/-- Observable outcome of running shell_rules.py `main` once:
a silent allow exit, a printed decision envelope, or an uncaught
exception (non-zero process exit). -/
inductive ShellOutcome where
  | exitAllow : ShellOutcome
  | emit : String → String → ShellOutcome
  | crash : String → ShellOutcome
deriving DecidableEq, Repr

/-- `main` of shell_rules.py. `stdin` is `none` when `json.load` raised
`JSONDecodeError` (the only exception the script catches); the script
never reads `tool_name`. -/
def shell_rules_run (stdin : Option Json) (rulesFile : Option String) : ShellOutcome :=
  match stdin with
  | none => .exitAllow
  | some input_data =>
    match input_data.get "tool_input" (.jobj []) with
    | .error e => .crash e
    | .ok tool_input =>
      match tool_input.get "command" (.jstr "") with
      | .error e => .crash e
      | .ok cmdJ =>
        if !cmdJ.truthy then .exitAllow
        else
          match cmdJ with
          | .jstr command =>
            if (check_command command).1 == "" then .exitAllow
            else .emit (check_command command).1
              ((check_command command).2 ++ "\n\n" ++ load_rules rulesFile)
          | _ => .crash "TypeError"

/-! ## opus_permission_validator.py : allow-list and classifier -/

/-- `SAFE_COMMANDS` of opus_permission_validator.py. -/
def SAFE_COMMANDS : List String :=
  ["ls", "pwd", "echo", "cat", "head", "tail", "wc",
   "grep", "rg", "fd", "find", "tree", "jq", "sort", "uniq",
   "git status", "git log", "git diff", "tokei", "dust"]

/-- `get_first_word` of opus_permission_validator.py. -/
def get_first_word (command : String) : String :=
  match pySplit command with
  | [] => ""
  | first :: rest =>
    if first == "sudo" || first == "time" || first == "env" then
      match rest with
      | [] => first
      | second :: _ => second
    else first

/-- Does `hay` contain `needle` as a contiguous run (Python `needle in hay`)? -/
def listIsPrefixChars : List Char → List Char → Bool
  | [], _ => true
  | _ :: _, [] => false
  | c :: cs, d :: ds => c == d && listIsPrefixChars cs ds

/-- Substring containment over character lists. -/
def listIsInfixChars (needle : List Char) : List Char → Bool
  | [] => listIsPrefixChars needle []
  | d :: rest => listIsPrefixChars needle (d :: rest) || listIsInfixChars needle rest

/-- Python `sub in s` for strings. -/
def strContainsSub (s sub : String) : Bool :=
  listIsInfixChars sub.toList s.toList

/-- The metacharacter substrings of opus_permission_validator.py line 161. -/
def METACHARS : List String :=
  ["|", ">", "<", "&", ";", "$(", "\x60"]

/-- `any(char in command for char in (...))` of line 161. -/
def containsMeta (command : String) : Bool :=
  METACHARS.any (fun m => strContainsSub command m)

/-- `is_simple` of line 161: no pipes, redirects, or complex structure. -/
def is_simple (command : String) : Bool :=
  !containsMeta command

/-! ## opus_permission_validator.py : oracle adapter -/

/-- Outcome of the `subprocess.run(["claude", ...])` call: a completed
process with exit code and stdout, or one of the exceptional outcomes
caught by `analyze_with_opus`. -/
inductive OracleOutcome where
  | ok : Int → String → OracleOutcome
  | timeoutExpired : OracleOutcome
  | fileNotFound : OracleOutcome
  | otherException : String → OracleOutcome
deriving DecidableEq, Repr

/-- `analyze_with_opus` of opus_permission_validator.py, with the
subprocess behaviour supplied as `outcome`; returns `(is_safe, reason)`. -/
def analyze_with_opus (command : String) (outcome : OracleOutcome) : Bool × String :=
  match outcome with
  | .ok returncode stdout =>
    if returncode != 0 then (true, "Claude CLI error")
    else
      if stdout.trim.startsWith "SAFE:" then (true, ((stdout.trim.drop 5).trim))
      else if stdout.trim.startsWith "UNSAFE:" then (false, ((stdout.trim.drop 7).trim))
      else (true, "Unexpected response format")
  | .timeoutExpired => (true, "Analysis timeout")
  | .fileNotFound => (true, "Claude CLI not available")
  | .otherException msg => (true, "Validation error: " ++ msg)

/-- Oracle outcomes the spec classifies as Indeterminate: non-zero exit,
timeout, missing executable, unparseable output, or any other exception. -/
def indeterminate : OracleOutcome → Bool
  | .ok returncode stdout =>
    returncode != 0 ||
      (!(stdout.trim.startsWith "SAFE:") && !(stdout.trim.startsWith "UNSAFE:"))
  | .timeoutExpired => true
  | .fileNotFound => true
  | .otherException _ => true

/-! ## opus_permission_validator.py : decision envelope and `main` -/

/-- `create_decision_json` of opus_permission_validator.py. -/
structure DecisionJson where
  hookEventName : String
  behavior : String
  message : Option String
deriving DecidableEq, Repr

/-- `create_decision_json(behavior, message)`. -/
def create_decision_json (behavior : String) (message : Option String) : DecisionJson :=
  ⟨"PermissionRequest", behavior, message⟩

/-- Result of one run of the validator: the printed decision envelope and
whether the oracle subprocess was launched. -/
structure ValidatorResult where
  output : DecisionJson
  oracleInvoked : Bool
deriving DecidableEq, Repr

/-- Lines 146-178 of opus_permission_validator.py `main`, after `tool_name`
and `command` have been extracted from the envelope as strings. -/
def validator_main (tool_name command : String) (oracle : OracleOutcome) : ValidatorResult :=
  if tool_name ≠ "Bash" then ⟨create_decision_json "allow" none, false⟩
  else if command = "" then ⟨create_decision_json "allow" none, false⟩
  else if is_simple command && SAFE_COMMANDS.contains (get_first_word command) then
    ⟨create_decision_json "allow" none, false⟩
  else if (analyze_with_opus command oracle).1 then
    ⟨create_decision_json "allow" none, true⟩
  else
    ⟨create_decision_json "deny"
      (some ("Opus safety check: " ++ (analyze_with_opus command oracle).2)), true⟩

/-- `main` of opus_permission_validator.py over the raw stdin document;
`none` models a `json.JSONDecodeError`. Every extraction failure is
absorbed by the blanket `except Exception` handler into a plain allow. -/
def validator_run (stdin : Option Json) (oracle : OracleOutcome) : ValidatorResult :=
  match stdin with
  | none => ⟨create_decision_json "allow" none, false⟩
  | some hook_input =>
    match hook_input.get "tool_name" (.jstr "") with
    | .error _ => ⟨create_decision_json "allow" none, false⟩
    | .ok tn =>
      if !(tn.eqStr "Bash") then ⟨create_decision_json "allow" none, false⟩
      else
        match hook_input.get "tool_input" (.jobj []) with
        | .error _ => ⟨create_decision_json "allow" none, false⟩
        | .ok tool_input =>
          match tool_input.get "command" (.jstr "") with
          | .error _ => ⟨create_decision_json "allow" none, false⟩
          | .ok cmdJ =>
            if !cmdJ.truthy then ⟨create_decision_json "allow" none, false⟩
            else
              match cmdJ with
              | .jstr command => validator_main "Bash" command oracle
              | _ => ⟨create_decision_json "allow" none, false⟩

/-! ## Spec-side characterisation for the forbidden rule (claim C9) -/

/-- The text before a candidate `rm` occurrence ends in a non-word
character (or is empty). -/
def nonWordEnd (l : List Char) : Bool :=
  match l.getLast? with
  | none => true
  | some c => !isWordChar c

/-- The command contains `rm` as a standalone word somewhere: the
occurrence is flanked by word boundaries on both sides. -/
def standaloneRm (cmd : String) : Prop :=
  ∃ pre post : List Char,
    cmd.toList = pre ++ 'r' :: 'm' :: post ∧
    nonWordEnd pre = true ∧ nonWordStart post = true

/-! ## Helper lemmas -/

/-- Track the character immediately preceding a position after scanning `pre`. -/
def lastTok (prev : Option Char) : List Char → Option Char
  | [] => prev
  | c :: rest => lastTok (some c) rest

theorem rmScan_append (pre : List Char) (prev : Option Char) (l : List Char)
    (h : rmScan (lastTok prev pre) l = true) : rmScan prev (pre ++ l) = true := by
  induction pre generalizing prev with
  | nil => simpa [lastTok] using h
  | cons a pre ih =>
    have h' : rmScan (lastTok (some a) pre) l = true := by simpa [lastTok] using h
    simp [rmScan, ih (some a) h']

theorem rmScan_here (prev : Option Char) (l : List Char)
    (h1 : prevNonWord prev = true) (h2 : rmHere l = true) : rmScan prev l = true := by
  cases l with
  | nil => simp [rmHere] at h2
  | cons c rest => simp [rmScan, h1, h2]

theorem lastTok_nonword (pre : List Char) (prev : Option Char)
    (h1 : pre = [] → prevNonWord prev = true) (h2 : nonWordEnd pre = true) :
    prevNonWord (lastTok prev pre) = true := by
  induction pre generalizing prev with
  | nil => simpa [lastTok] using h1 rfl
  | cons a pre ih =>
    simp only [lastTok]
    apply ih (some a)
    · intro hpre
      subst hpre
      simpa [nonWordEnd, prevNonWord] using h2
    · cases pre with
      | nil => simp [nonWordEnd]
      | cons b pre2 => simpa [nonWordEnd, List.getLast?_cons_cons] using h2

theorem rmSearch_of_standalone (cmd : String) (h : standaloneRm cmd) :
    rmSearch cmd = true := by
  obtain ⟨pre, post, hsplit, hpre, hpost⟩ := h
  unfold rmSearch
  rw [hsplit]
  apply rmScan_append
  apply rmScan_here
  · exact lastTok_nonword pre none (fun _ => rfl) hpre
  · simp [rmHere, hpost]

theorem deny_of_rmSearch (cmd : String) (h : rmSearch cmd = true) :
    check_command cmd = ("deny", "rm command forbidden") := by
  simp [check_command, FORBIDDEN, List.find?, h]

example : rmSearch "rm -rf /tmp/x" = true := by decide
example : rmSearch "echo rm" = true := by decide
example : rmSearch "git rm --cached f" = true := by decide
example : rmSearch "format" = false := by decide
example : rmSearch "rmdir x" = false := by decide
example : xargsSearch "xargs -Ix sh -c foo" = true := by decide
example : xargsSearch "ls -la" = false := by decide
example : pySplit "sudo cat /etc/shadow" = ["sudo", "cat", "/etc/shadow"] := by decide
example : get_first_word "git status" = "git" := by decide
example : containsMeta "ls | wc -l" = true := by decide
example : shell_rules_run (some (Json.jarr [Json.jnum 1, Json.jnum 2])) none =
    ShellOutcome.crash "AttributeError" := by decide
example : validator_main "Bash" "git status" OracleOutcome.timeoutExpired =
    ⟨create_decision_json "allow" none, true⟩ := by decide

/-! ## Claim theorems -/

theorem validator_output_allow_of_safe (tool_name command : String) (o : OracleOutcome)
    (h : (analyze_with_opus command o).1 = true) :
    (validator_main tool_name command o).output = create_decision_json "allow" none := by
  unfold validator_main
  split
  · rfl
  · split
    · rfl
    · split
      · rfl
      · simp only [h, if_true]

/-- C1: every command matching the forbidden `rm` pattern is denied by
`check_command` with that rule's reason; the forbidden tier is consulted
before the caution tier, so a command matching both patterns is still
denied, and allow-list membership of the leading verb (here `grep`)
does not change the outcome. -/
theorem forbidden_rm_always_deny :
    (∀ command : String, rmSearch command = true →
      check_command command = ("deny", "rm command forbidden")) ∧
    check_command "xargs -Ix sh -c rm f" = ("deny", "rm command forbidden") ∧
    SAFE_COMMANDS.contains "grep" = true ∧
    check_command "grep rm f" = ("deny", "rm command forbidden") :=
  ⟨deny_of_rmSearch, by decide, by decide, by decide⟩

/-- Witness for C1 at the concrete command `rm -rf /tmp/x`. -/
theorem forbidden_rm_always_deny_witness :
    rmSearch "rm -rf /tmp/x" = true ∧
    check_command "rm -rf /tmp/x" = ("deny", "rm command forbidden") :=
  ⟨by decide, forbidden_rm_always_deny.1 "rm -rf /tmp/x" (by decide)⟩

/-- C9: forbidden matching is an unanchored word-boundary search over the
whole command text, not a leading-verb check: every command containing
`rm` as a standalone word anywhere is denied by `check_command` with
reason `rm command forbidden`, including `echo rm` and
`git rm --cached f` where `rm` is a non-leading argument. -/
theorem rm_word_anywhere_denied :
    (∀ command : String, standaloneRm command →
      check_command command = ("deny", "rm command forbidden")) ∧
    check_command "echo rm" = ("deny", "rm command forbidden") ∧
    check_command "git rm --cached f" = ("deny", "rm command forbidden") :=
  ⟨fun command h => deny_of_rmSearch command (rmSearch_of_standalone command h),
   by decide, by decide⟩

/-- Witness for C9 at the concrete command `echo rm`. -/
theorem rm_word_anywhere_denied_witness :
    standaloneRm "echo rm" ∧ check_command "echo rm" = ("deny", "rm command forbidden") := by
  have hs : standaloneRm "echo rm" :=
    ⟨"echo ".toList, [], by decide, by decide, by decide⟩
  exact ⟨hs, rm_word_anywhere_denied.1 "echo rm" hs⟩

/-- C2: every oracle outcome classified Indeterminate (non-zero exit,
timeout, missing executable, unparseable output, other exception) makes
`analyze_with_opus` return the safe verdict, and the envelope emitted by
the validator is the plain allow decision (fail-open). -/
theorem indeterminate_oracle_fails_open :
    ∀ o : OracleOutcome, indeterminate o = true →
      ∀ command : String, (analyze_with_opus command o).1 = true ∧
        ∀ tool_name : String,
          (validator_main tool_name command o).output = create_decision_json "allow" none := by
  intro o h command
  have hsafe : (analyze_with_opus command o).1 = true := by
    cases o with
    | ok returncode stdout =>
      simp only [analyze_with_opus]
      cases hrc : (returncode != 0) with
      | true => simp
      | false =>
        rw [indeterminate, hrc] at h
        simp only [Bool.false_or, Bool.and_eq_true, Bool.not_eq_true'] at h
        simp [h.1, h.2]
    | timeoutExpired => rfl
    | fileNotFound => rfl
    | otherException msg => rfl
  exact ⟨hsafe, fun tool_name => validator_output_allow_of_safe tool_name command o hsafe⟩

/-- Witness for C2 with a timed-out oracle on a concrete command. -/
theorem indeterminate_oracle_fails_open_witness :
    indeterminate OracleOutcome.timeoutExpired = true ∧
    (analyze_with_opus "curl example" OracleOutcome.timeoutExpired).1 = true ∧
    (validator_main "Bash" "curl example" OracleOutcome.timeoutExpired).output =
      create_decision_json "allow" none :=
  ⟨by decide,
   (indeterminate_oracle_fails_open OracleOutcome.timeoutExpired (by decide) "curl example").1,
   (indeterminate_oracle_fails_open OracleOutcome.timeoutExpired (by decide) "curl example").2 "Bash"⟩

/-- C3: the two-word allow-list entries are dead code: `get_first_word`
returns only the first whitespace token, so for `git status` the leading
verb is `git`, which is not in `SAFE_COMMANDS` even though `git status`
is; the command is therefore not whitelisted and the oracle is invoked,
contrary to the claimed two-token-prefix matching. -/
theorem git_status_not_whitelisted :
    get_first_word "git status" = "git" ∧
    SAFE_COMMANDS.contains "git status" = true ∧
    SAFE_COMMANDS.contains "git" = false ∧
    validator_main "Bash" "git status" OracleOutcome.timeoutExpired =
      ⟨create_decision_json "allow" none, true⟩ := by
  refine ⟨by decide, by decide, by decide, by decide⟩

/-- C4 counterexample: shell_rules.py never reads `tool_name`, so an
envelope with tool_name `Edit` and a nonempty command still has the
forbidden pattern applied and a deny envelope emitted, refuting the
claim that both hook scripts allow unconditionally on a tool mismatch. -/
theorem shell_rules_checks_nonbash_cex :
    shell_rules_run (some (mkEnv "Edit" "rm x")) none =
      ShellOutcome.emit "deny"
        ("rm command forbidden" ++ "\n\n" ++ "(Rules file not found)") := by decide

/-- C4 (amended): the opus validator allows unconditionally, without
invoking the oracle, whenever `tool_name` is not `Bash` or the command
is empty; shell_rules.py, which never examines `tool_name`, exits with
the silent allow only when the command is empty. -/
theorem nonbash_or_empty_unconditional_allow :
    (∀ (tool_name command : String) (o : OracleOutcome),
        tool_name ≠ "Bash" ∨ command = "" →
        validator_main tool_name command o =
          ⟨create_decision_json "allow" none, false⟩) ∧
    (∀ (tool_name : String) (rulesFile : Option String),
        shell_rules_run (some (mkEnv tool_name "")) rulesFile = ShellOutcome.exitAllow) := by
  constructor
  · intro tool_name command o h
    unfold validator_main
    rcases h with h | h
    · rw [if_pos h]
    · subst h
      split
      · rfl
      · rw [if_pos rfl]
  · intro tool_name rulesFile
    rfl

/-- Witness for C4 with a non-Bash tool and a nonempty command. -/
theorem nonbash_or_empty_unconditional_allow_witness :
    validator_main "Edit" "ls -la" OracleOutcome.timeoutExpired =
      ⟨create_decision_json "allow" none, false⟩ :=
  nonbash_or_empty_unconditional_allow.1 "Edit" "ls -la" OracleOutcome.timeoutExpired
    (Or.inl (by decide))

/-- C5: every command containing one of the metacharacter substrings is
not simple, so it is never whitelisted and the validator proceeds to the
oracle regardless of its leading verb. -/
theorem metachar_commands_reach_oracle :
    ∀ (command : String) (o : OracleOutcome), containsMeta command = true →
      is_simple command = false ∧
      (validator_main "Bash" command o).oracleInvoked = true := by
  intro command o h
  have hs : is_simple command = false := by simp [is_simple, h]
  have hne : command ≠ "" := by
    intro hcmd
    subst hcmd
    exact absurd h (by decide)
  refine ⟨hs, ?_⟩
  unfold validator_main
  rw [if_neg (fun hh => hh rfl), if_neg hne, hs]
  simp only [Bool.false_and, Bool.false_eq_true, if_false]
  split <;> rfl

/-- Witness for C5 at the concrete compound command `ls | wc -l`. -/
theorem metachar_commands_reach_oracle_witness :
    is_simple "ls | wc -l" = false ∧
    (validator_main "Bash" "ls | wc -l" OracleOutcome.timeoutExpired).oracleInvoked = true :=
  metachar_commands_reach_oracle "ls | wc -l" OracleOutcome.timeoutExpired (by decide)

/-- C8: on the valid-JSON input `[1, 2]`, which is not an object,
shell_rules.py raises an uncaught `AttributeError` (it catches only
`JSONDecodeError`) and exits non-zero, while the opus validator's
blanket exception handler turns the same input into a plain allow. -/
theorem shell_rules_crash_on_array_input :
    shell_rules_run (some (Json.jarr [Json.jnum 1, Json.jnum 2])) none =
      ShellOutcome.crash "AttributeError" ∧
    ∀ o : OracleOutcome,
      validator_run (some (Json.jarr [Json.jnum 1, Json.jnum 2])) o =
        ⟨create_decision_json "allow" none, false⟩ :=
  ⟨by decide, fun _ => rfl⟩

theorem validator_run_cases (j : Json) (o : OracleOutcome) :
    validator_run (some j) o = ⟨create_decision_json "allow" none, false⟩ ∨
    ∃ command : String, command ≠ "" ∧
      validator_run (some j) o = validator_main "Bash" command o := by
  unfold validator_run
  dsimp only
  cases hg : j.get "tool_name" (Json.jstr "") with
  | error e => exact Or.inl rfl
  | ok tn =>
    dsimp only
    cases hb : tn.eqStr "Bash" with
    | false => exact Or.inl rfl
    | true =>
      cases hg2 : j.get "tool_input" (Json.jobj []) with
      | error e => exact Or.inl rfl
      | ok ti =>
        dsimp only
        cases hg3 : ti.get "command" (Json.jstr "") with
        | error e => exact Or.inl rfl
        | ok cmdJ =>
          dsimp only
          cases htr : cmdJ.truthy with
          | false => exact Or.inl rfl
          | true =>
            cases cmdJ with
            | jstr s =>
              refine Or.inr ⟨s, ?_, rfl⟩
              intro hs
              subst hs
              simp [Json.truthy] at htr
            | jnull => exact Or.inl rfl
            | jbool b => exact Or.inl rfl
            | jnum n => exact Or.inl rfl
            | jarr xs => exact Or.inl rfl
            | jobj fs => exact Or.inl rfl

/-- C6: the oracle subprocess is launched if and only if the deterministic
layer produced no opinion: exactly when the tool name is `Bash`, the
command is nonempty, and the command is not both simple and allow-listed
by its leading verb; on every other path of the validator, including
malformed or non-string envelopes, the oracle is never launched. -/
theorem oracle_iff_no_opinion :
    (∀ (tool_name command : String) (o : OracleOutcome),
        (validator_main tool_name command o).oracleInvoked = true ↔
          (tool_name = "Bash" ∧ command ≠ "" ∧
            ¬(is_simple command = true ∧
              SAFE_COMMANDS.contains (get_first_word command) = true))) ∧
    (∀ (stdin : Option Json) (o : OracleOutcome),
        (validator_run stdin o).oracleInvoked = true →
          ∃ command : String, command ≠ "" ∧
            validator_run stdin o = validator_main "Bash" command o) := by
  constructor
  · intro tool_name command o
    unfold validator_main
    by_cases h1 : tool_name = "Bash"
    · subst h1
      rw [if_neg (fun hh => hh rfl)]
      by_cases h2 : command = ""
      · subst h2
        rw [if_pos rfl]
        simp
      · rw [if_neg h2]
        by_cases h3 : (is_simple command &&
            SAFE_COMMANDS.contains (get_first_word command)) = true
        · rw [if_pos h3]
          rw [Bool.and_eq_true] at h3
          constructor
          · intro hfalse
            simp at hfalse
          · rintro ⟨-, -, hno⟩
            exact absurd ⟨h3.1, h3.2⟩ hno
        · rw [if_neg h3]
          constructor
          · intro _
            refine ⟨rfl, h2, fun hab => h3 ?_⟩
            rw [Bool.and_eq_true]
            exact ⟨hab.1, hab.2⟩
          · intro _
            split <;> rfl
    · rw [if_pos h1]
      simp [h1]
  · intro stdin o h
    cases stdin with
    | none => simp [validator_run] at h
    | some j =>
      rcases validator_run_cases j o with heq | ⟨c, hc, heq⟩
      · rw [heq] at h
        simp at h
      · exact ⟨c, hc, heq⟩

/-- Witness for C6 on a compound command reaching the oracle. -/
theorem oracle_iff_no_opinion_witness :
    ∃ command : String, command ≠ "" ∧
      validator_run (some (mkEnv "Bash" "ls | wc -l")) OracleOutcome.timeoutExpired =
        validator_main "Bash" command OracleOutcome.timeoutExpired :=
  oracle_iff_no_opinion.2 (some (mkEnv "Bash" "ls | wc -l"))
    OracleOutcome.timeoutExpired (by decide)

/-- C7: every command matching the caution (antipattern) rule but not the
forbidden rule gets decision `ask` from `check_command`; the envelope
emitted by shell_rules.py pairs that rule's reason with the rule-document
text, and a missing rules file yields the documented placeholder.
shell_rules.py contains no oracle call on any code path. -/
theorem caution_ask_with_rules_text :
    ∀ command : String, xargsSearch command = true → rmSearch command = false →
      check_command command = ("ask", "xargs -I ... sh -c antipattern detected") ∧
      (∀ (tool_name : String) (rulesFile : Option String),
        shell_rules_run (some (mkEnv tool_name command)) rulesFile =
          ShellOutcome.emit "ask"
            ("xargs -I ... sh -c antipattern detected" ++ "\n\n" ++ load_rules rulesFile)) ∧
      load_rules none = "(Rules file not found)" := by
  intro command h1 h2
  have hcc : check_command command = ("ask", "xargs -I ... sh -c antipattern detected") := by
    simp [check_command, FORBIDDEN, ANTIPATTERNS, List.find?, h1, h2]
  refine ⟨hcc, ?_, rfl⟩
  intro tool_name rulesFile
  have hne : command ≠ "" := by
    intro hc
    subst hc
    exact absurd h1 (by decide)
  have e1 : (mkEnv tool_name command).get "tool_input" (Json.jobj []) =
      Except.ok (Json.jobj [("command", Json.jstr command)]) := rfl
  have e2 : (Json.jobj [("command", Json.jstr command)]).get "command" (Json.jstr "") =
      Except.ok (Json.jstr command) := rfl
  have ht : (Json.jstr command).truthy = true := by
    simp [Json.truthy, hne]
  unfold shell_rules_run
  dsimp only
  rw [e1]
  dsimp only
  rw [e2]
  dsimp only
  rw [ht, hcc]
  rfl

/-- Witness for C7 at a concrete antipattern command with a present and an
absent rules file. -/
theorem caution_ask_with_rules_text_witness :
    check_command "xargs -Ix sh -c foo" = ("ask", "xargs -I ... sh -c antipattern detected") ∧
    shell_rules_run (some (mkEnv "Bash" "xargs -Ix sh -c foo")) none =
      ShellOutcome.emit "ask"
        ("xargs -I ... sh -c antipattern detected" ++ "\n\n" ++ "(Rules file not found)") :=
  ⟨(caution_ask_with_rules_text "xargs -Ix sh -c foo" (by decide) (by decide)).1,
   (caution_ask_with_rules_text "xargs -Ix sh -c foo" (by decide) (by decide)).2.1 "Bash" none⟩

theorem pySplit_of_empty : pySplit "" = [] := rfl

theorem pySplit_ne_nil_of_cons (command : String) (w : String) (l : List String)
    (h : pySplit command = w :: l) : command ≠ "" := by
  intro hc
  subst hc
  rw [pySplit_of_empty] at h
  exact List.noConfusion h

theorem get_first_word_wrapper (command w t : String) (rest : List String)
    (h : pySplit command = w :: t :: rest)
    (hw : w = "sudo" ∨ w = "time" ∨ w = "env") : get_first_word command = t := by
  unfold get_first_word
  rw [h]
  rcases hw with rfl | rfl | rfl <;> rfl

theorem get_first_word_wrapper_alone (command w : String)
    (h : pySplit command = [w]) (hw : w = "sudo" ∨ w = "time" ∨ w = "env") :
    get_first_word command = w := by
  unfold get_first_word
  rw [h]
  rcases hw with rfl | rfl | rfl <;> rfl

/-- C10: wrapper skipping feeds the allow-list check: a simple command
whose first token is `sudo`, `time` or `env` and whose second token is in
`SAFE_COMMANDS` (such as `sudo cat /etc/shadow`) is whitelisted and the
oracle is never launched; exactly one wrapper level is skipped (the
second token is returned even when it is itself a wrapper); and a lone
wrapper token is returned as the leading verb itself. -/
theorem wrapper_skip_feeds_allowlist :
    (∀ (command : String) (o : OracleOutcome) (w t : String) (rest : List String),
        pySplit command = w :: t :: rest →
        (w = "sudo" ∨ w = "time" ∨ w = "env") →
        SAFE_COMMANDS.contains t = true →
        containsMeta command = false →
        validator_main "Bash" command o =
          ⟨create_decision_json "allow" none, false⟩) ∧
    (∀ (command w t : String) (rest : List String),
        pySplit command = w :: t :: rest →
        (w = "sudo" ∨ w = "time" ∨ w = "env") →
        get_first_word command = t) ∧
    (∀ (command w : String),
        pySplit command = [w] →
        (w = "sudo" ∨ w = "time" ∨ w = "env") →
        get_first_word command = w) := by
  refine ⟨?_, get_first_word_wrapper, get_first_word_wrapper_alone⟩
  intro command o w t rest h hw hsafe hmeta
  have hfw : get_first_word command = t := get_first_word_wrapper command w t rest h hw
  have hne : command ≠ "" := pySplit_ne_nil_of_cons command w (t :: rest) h
  have hcond : (is_simple command &&
      SAFE_COMMANDS.contains (get_first_word command)) = true := by
    unfold is_simple
    rw [hfw, hmeta, hsafe]
    rfl
  unfold validator_main
  rw [if_neg (fun hh => hh rfl), if_neg hne, if_pos hcond]

/-- Witness for C10: `sudo cat /etc/shadow` is whitelisted without the
oracle; only one wrapper level is skipped (`sudo env ls` yields `env`);
a lone wrapper yields itself. -/
theorem wrapper_skip_feeds_allowlist_witness :
    validator_main "Bash" "sudo cat /etc/shadow" OracleOutcome.timeoutExpired =
      ⟨create_decision_json "allow" none, false⟩ ∧
    get_first_word "sudo env ls" = "env" ∧
    get_first_word "sudo" = "sudo" :=
  ⟨wrapper_skip_feeds_allowlist.1 "sudo cat /etc/shadow" OracleOutcome.timeoutExpired
      "sudo" "cat" ["/etc/shadow"] (by decide) (Or.inl rfl) (by decide) (by decide),
   wrapper_skip_feeds_allowlist.2.1 "sudo env ls" "sudo" "env" ["ls"] (by decide) (Or.inl rfl),
   wrapper_skip_feeds_allowlist.2.2 "sudo" "sudo" (by decide) (Or.inl rfl)⟩
